import Mathlib

/-!
A shallow embedding of the self-updating application (`updater.py`,
`config.py`) and proofs of the specification claims about it.

The update engine is modelled as pure state-transformer functions over an
explicit filesystem state (`St`): the scratch/temp directory, the backup
directory, and the live installation directory.  External effects whose
outcome the code merely observes (HTTP requests, archive extraction
succeeding or failing, the bytes that arrived and their SHA-256 digest)
are supplied by an environment record (`Env`).  Each embedded function
additionally returns the ordered list of observable events it performs,
so temporal claims (rollback before reporting failure, restart after
report) can be stated about event order.
-/

namespace SelfUpdate

/-! ### Strings and checksums -/

/-- ASCII lower-casing of one character, as `str.lower` does on the
hex-digit alphabet used for checksums. -/
def charLower (c : Char) : Char :=
  if 'A' ≤ c ∧ c ≤ 'Z' then Char.ofNat (c.toNat + 32) else c

/-- Lower-case a string (models `str.lower()` on ASCII content). -/
def strLower (s : String) : String := String.mk (s.data.map charLower)

/-- The final comparison of `SelfUpdater._verify_checksum`:
`actual_checksum.lower() == expected_checksum.lower()`. -/
def checksumMatches (actual expected : String) : Bool :=
  strLower actual == strLower expected

/-! ### Semantic versions (the `semver.compare` call in `_check_and_update`) -/

/-- One dot-separated pre-release identifier: numeric or alphanumeric. -/
inductive PreId where
  | num : Nat → PreId
  | alpha : String → PreId
deriving DecidableEq

/-- A parsed semantic version (build metadata is ignored by precedence). -/
structure SemVer where
  major : Nat
  minor : Nat
  patch : Nat
  pre : List PreId
deriving DecidableEq

def natCmp (a b : Nat) : Ordering :=
  if a < b then .lt else if b < a then .gt else .eq

def charListCmp : List Char → List Char → Ordering
  | [], [] => .eq
  | [], _ :: _ => .lt
  | _ :: _, [] => .gt
  | a :: as, b :: bs =>
      if a.toNat < b.toNat then .lt
      else if b.toNat < a.toNat then .gt
      else charListCmp as bs

/-- Pre-release identifier precedence: numeric identifiers compare
numerically and are lower than alphanumeric ones; alphanumeric
identifiers compare in ASCII order. -/
def preIdCmp : PreId → PreId → Ordering
  | .num a, .num b => natCmp a b
  | .num _, .alpha _ => .lt
  | .alpha _, .num _ => .gt
  | .alpha a, .alpha b => charListCmp a.data b.data

/-- Precedence on pre-release identifier lists: identifier by identifier,
a shorter list that is a prefix of the longer one having lower precedence. -/
def preListCmp : List PreId → List PreId → Ordering
  | [], [] => .eq
  | [], _ :: _ => .lt
  | _ :: _, [] => .gt
  | a :: as, b :: bs =>
      match preIdCmp a b with
      | .eq => preListCmp as bs
      | o => o

/-- Semantic-versioning precedence: major, minor, patch numerically, then
a version with a pre-release list precedes the same core without one. -/
def SemVer.cmp (a b : SemVer) : Ordering :=
  match natCmp a.major b.major with
  | .eq =>
    match natCmp a.minor b.minor with
    | .eq =>
      match natCmp a.patch b.patch with
      | .eq =>
        match a.pre, b.pre with
        | [], [] => .eq
        | [], _ :: _ => .gt
        | _ :: _, [] => .lt
        | p, q => preListCmp p q
      | o => o
    | o => o
  | o => o

def isDigitCh (c : Char) : Bool := '0' ≤ c && c ≤ '9'

/-- Characters allowed in pre-release and build identifiers. -/
def isIdentCh (c : Char) : Bool :=
  isDigitCh c || ('a' ≤ c && c ≤ 'z') || ('A' ≤ c && c ≤ 'Z') || c == '-'

def digitsToNat (l : List Char) : Nat :=
  l.foldl (fun n c => 10 * n + (c.toNat - '0'.toNat)) 0

/-- Split a character list on a separator character (the groups between
separators, in order; `n` separators yield `n+1` groups). -/
def splitOnCh (sep : Char) : List Char → List (List Char)
  | [] => [[]]
  | c :: cs =>
    match splitOnCh sep cs with
    | [] => [[]]
    | g :: gs => if c == sep then [] :: g :: gs else (c :: g) :: gs

/-- A numeric version core part: digits only, no leading zero. -/
def parseNumPart : List Char → Option Nat
  | [] => none
  | c :: cs =>
    if !(c :: cs).all isDigitCh then none
    else if c == '0' && !cs.isEmpty then none
    else some (digitsToNat (c :: cs))

/-- One pre-release identifier: nonempty, `[0-9A-Za-z-]` only; all-digit
identifiers are numeric and must not have a leading zero. -/
def parsePreId : List Char → Option PreId
  | [] => none
  | c :: cs =>
    if !(c :: cs).all isIdentCh then none
    else if (c :: cs).all isDigitCh then
      if c == '0' && !cs.isEmpty then none
      else some (.num (digitsToNat (c :: cs)))
    else some (.alpha (String.mk (c :: cs)))

/-- Rejoin groups with a separator (used because pre-release identifiers
may themselves contain hyphens). -/
def joinWith (sep : Char) : List (List Char) → List Char
  | [] => []
  | [g] => g
  | g :: gs => g ++ sep :: joinWith sep gs

/-- A build-metadata identifier: nonempty, `[0-9A-Za-z-]` only. -/
def buildIdOk (l : List Char) : Bool := !l.isEmpty && l.all isIdentCh

/-- Parse the part of a version string before any `+`:
`major.minor.patch` with an optional `-`-introduced pre-release list. -/
def parseMain (m : List Char) : Option SemVer :=
  match splitOnCh '-' m with
  | [] => none
  | core :: rest =>
    let preIds :=
      match rest with
      | [] => some []
      | _ => (splitOnCh '.' (joinWith '-' rest)).mapM parsePreId
    match splitOnCh '.' core, preIds with
    | [ma, mi, pa], some pre =>
      match parseNumPart ma, parseNumPart mi, parseNumPart pa with
      | some vMa, some vMi, some vPa => some ⟨vMa, vMi, vPa, pre⟩
      | _, _, _ => none
    | _, _ => none

/-- Parse a full semantic version string, validating (and discarding)
build metadata after a `+`. -/
def parseSemVer (s : String) : Option SemVer :=
  match splitOnCh '+' s.data with
  | [m] => parseMain m
  | [m, b] => if ((splitOnCh '.' b).all buildIdOk) then parseMain m else none
  | _ => none

def ordToInt : Ordering → Int
  | .lt => -1
  | .eq => 0
  | .gt => 1

/-- Models `semver.compare(a, b)`: `-1`, `0` or `1` by semver precedence;
`none` models the `ValueError` raised when either string is invalid. -/
def semverCompare (a b : String) : Option Int :=
  match parseSemVer a, parseSemVer b with
  | some x, some y => some (ordToInt (SemVer.cmp x y))
  | _, _ => none

/-! ### Configuration (`config.py`) -/

/-- The configuration fields the update engine reads (`Config` in
`config.py`); fixed for the lifetime of the process. -/
structure Config where
  VERSION : String
  APP_NAME : String
  MAX_BACKUP_COUNT : Nat
  VERIFY_CHECKSUMS : Bool
deriving DecidableEq

/-- The shipped configuration values: version `1.0.16`, app name
`nametag`, five retained backups, checksum verification on. -/
def defaultConfig : Config := ⟨"1.0.16", "nametag", 5, true⟩

/-- `Config.get_backup_path` plus the `.zip` that `shutil.make_archive`
*appends*: the archive `_create_backup` writes is named from the app
identifier and the *currently running* version only. -/
def Config.backupZipName (cfg : Config) : String :=
  cfg.APP_NAME ++ "_v" ++ cfg.VERSION ++ ".zip"

/-- Scan a reversed file name for its last dot: the returned characters
are the stem, reversed; `none` when the last dot is the name's first
character (a leading dot starts the stem, `PurePath.suffix`'s rule) or
there is no dot at all. -/
def findStemRev : List Char → Option (List Char)
  | [] => none
  | c :: cs => if c == '.' then (if cs.isEmpty then none else some cs) else findStemRev cs

/-- `PurePath.with_suffix`: when the name has an extension — characters
from the last dot, provided that dot is neither the first nor the last
character — replace it with `suf`; otherwise append `suf`. -/
def withSuffix (base suf : String) : String :=
  match base.data.reverse with
  | [] => base ++ suf
  | c :: cs =>
    if c == '.' then base ++ suf
    else
      match findStemRev (c :: cs) with
      | none => base ++ suf
      | some stemRev => String.mk stemRev.reverse ++ suf

/-- The file name `_rollback` actually checks:
`get_backup_path().with_suffix('.zip')`.  For a dotted version
`with_suffix` *replaces* the version's last dot-component instead of
appending, e.g. `nametag_v1.0.zip` for version `1.0.16` — a different
name from the `nametag_v1.0.16.zip` that `_create_backup` writes. -/
def Config.rollbackLookupName (cfg : Config) : String :=
  withSuffix (cfg.APP_NAME ++ "_v" ++ cfg.VERSION) ".zip"

/-! ### Filesystem state and environment -/

/-- A file inside an archive or the installation directory:
relative path and content. -/
abbrev Entry := String × String

/-- A directory tree / archive, as an association list of entries. -/
abbrev Dir := List Entry

/-- Write one file, overwriting a same-path file in place. -/
def setFile (d : Dir) (p c : String) : Dir :=
  if d.any (fun e => e.1 == p) then d.map (fun e => if e.1 == p then (p, c) else e)
  else d ++ [(p, c)]

/-- `zipfile.ZipFile.extractall`: every archive entry is written into the
directory, overwriting same-path files; files absent from the archive are
left alone (partial-replacement semantics). -/
def extractAll (ar : Dir) (d : Dir) : Dir :=
  ar.foldl (fun acc e => setFile acc e.1 e.2) d

/-- One backup archive in `BACKUP_DIR`: file name, filesystem
modification time, archived installation tree. -/
structure Backup where
  name : String
  mtime : Nat
  content : Dir
deriving DecidableEq

/-- One file in `TEMP_DIR`: name and (archive) content. -/
structure TempFile where
  name : String
  content : Dir
deriving DecidableEq

/-- The filesystem state the updater mutates: the scratch directory, the
backup directory, the live installation directory, and a clock supplying
modification times. -/
structure St where
  temp : List TempFile
  backups : List Backup
  install : Dir
  clock : Nat
deriving DecidableEq

/-- The remote manifest as consumed by the updater: `dict.get("version")`
and `dict.get("checksum")` (each `none` when the key is absent). -/
structure Manifest where
  version : Option String
  checksum : Option String
deriving DecidableEq

/-- Python truthiness of an optional string field (`if not x`):
absent and empty are both falsy. -/
def truthy : Option String → Bool
  | none => false
  | some s => !s.data.isEmpty

/-- Outcomes of the external effects performed during one cycle, fixed in
advance: whether each network call and archive operation succeeds, what
bytes arrive, and which files a failed extraction managed to write. -/
structure Env where
  manifest : Option Manifest
  requestOk : Bool
  streamOk : Bool
  downloadedContent : Dir
  downloadedDigest : String
  backupOk : Bool
  applyOk : Bool
  applyPartial : Dir
  rollbackOk : Bool
  rollbackPartial : Dir
deriving DecidableEq

/-! ### Events and outcomes -/

/-- A cycle's terminal outcome (`runCycle` in the spec). -/
inductive Outcome where
  | applied
  | noUpdate
  | failed
deriving DecidableEq

/-- Observable events of one cycle, in program order. -/
inductive Event where
  | downloadAttempt
  | checksumMismatch
  | backupAttempt
  | applyAttempt
  | rollbackAttempt
  | rollbackNoBackup
  | cleanupTemp
  | cleanupBackups
  | report (o : Outcome)
  | invokeRestart
  | sleepInterval
deriving DecidableEq

/-- The Python exceptions that can escape to `_check_and_update`'s outer
handler (only `semver.compare`'s `ValueError` in this code). -/
inductive PyError where
  | valueError
deriving DecidableEq

/-! ### The updater's operations (`updater.py`) -/

/-- `open(temp_file, 'wb')` then writing the stream: create or truncate
the named scratch file. -/
def writeTemp (s : St) (n : String) (c : Dir) : St :=
  if s.temp.any (fun t => t.name == n) then
    { s with temp := s.temp.map (fun t => if t.name == n then ⟨n, c⟩ else t) }
  else { s with temp := s.temp ++ [⟨n, c⟩] }

/-- `temp_file.unlink()`: remove the named scratch file. -/
def unlinkTemp (s : St) (n : String) : St :=
  { s with temp := s.temp.filter (fun t => !(t.name == n)) }

/-- `SelfUpdater._download_update`: stream the package to
`TEMP_DIR/update_<version>.zip`, then, when a truthy checksum was supplied
and verification is enabled, compare digests case-insensitively, deleting
the file and returning `none` on mismatch.  A missing `version` key
(`update_info['version']`), a failed request, or a failed stream ends in
the `except` handler returning `none`. -/
def downloadUpdate (cfg : Config) (env : Env) (info : Manifest) (s : St) :
    Option String × St × List Event :=
  match info.version with
  | none => (none, s, [Event.downloadAttempt])
  | some v =>
    let fname := "update_" ++ v ++ ".zip"
    if !env.requestOk then (none, s, [Event.downloadAttempt])
    else
      let s1 := writeTemp s fname env.downloadedContent
      if !env.streamOk then (none, s1, [Event.downloadAttempt])
      else if truthy info.checksum && cfg.VERIFY_CHECKSUMS then
        if !checksumMatches env.downloadedDigest (info.checksum.getD "") then
          (none, unlinkTemp s1 fname, [Event.downloadAttempt, Event.checksumMismatch])
        else (some fname, s1, [Event.downloadAttempt])
      else (some fname, s1, [Event.downloadAttempt])

/-- Insert a backup archive, overwriting an existing file of the same
name (as `shutil.make_archive` does). -/
def setBackup (l : List Backup) (b : Backup) : List Backup :=
  if l.any (fun x => x.name == b.name) then l.map (fun x => if x.name == b.name then b else x)
  else l ++ [b]

/-- `SelfUpdater._create_backup`: archive the installation directory into
`BACKUP_DIR/<APP_NAME>_v<VERSION>.zip`; `false` when `make_archive`
raises. -/
def createBackup (cfg : Config) (env : Env) (s : St) : Bool × St × List Event :=
  if env.backupOk then
    (true,
     { s with
        backups := setBackup s.backups ⟨cfg.backupZipName, s.clock, s.install⟩
        clock := s.clock + 1 },
     [Event.backupAttempt])
  else (false, s, [Event.backupAttempt])

/-- `SelfUpdater._apply_update` via `_extract_zip_to_app_dir`: extract the
downloaded archive over the installation directory; a failed extraction
may have written some entries (`env.applyPartial`) before raising. -/
def applyUpdate (env : Env) (fname : String) (s : St) : Bool × St × List Event :=
  match s.temp.find? (fun t => t.name == fname) with
  | none => (false, s, [Event.applyAttempt])
  | some t =>
    if env.applyOk then
      (true, { s with install := extractAll t.content s.install }, [Event.applyAttempt])
    else
      (false, { s with install := extractAll env.applyPartial s.install }, [Event.applyAttempt])

/-- `SelfUpdater._rollback`: look for the backup archive under the
`with_suffix`-derived name (`get_backup_path().with_suffix('.zip')` at
updater.py:213-214 — *not* the name `_create_backup` writes); if a file
of that name exists, extract it over the installation directory,
otherwise report failure with nothing touched. -/
def rollback (cfg : Config) (env : Env) (s : St) : Bool × St × List Event :=
  match s.backups.find? (fun b => b.name == cfg.rollbackLookupName) with
  | none => (false, s, [Event.rollbackAttempt, Event.rollbackNoBackup])
  | some b =>
    if env.rollbackOk then
      (true, { s with install := extractAll b.content s.install }, [Event.rollbackAttempt])
    else
      (false, { s with install := extractAll env.rollbackPartial s.install },
       [Event.rollbackAttempt])

/-- `SelfUpdater._cleanup_temp_files`: delete every entry of `TEMP_DIR`. -/
def cleanupTempFiles (s : St) : St × List Event :=
  ({ s with temp := [] }, [Event.cleanupTemp])

/-- The glob `{APP_NAME}_v*.zip` used by `_cleanup_old_backups`. -/
def matchesBackupGlob (cfg : Config) (n : String) : Bool :=
  (cfg.APP_NAME ++ "_v").data.isPrefixOf n.data
    && ".zip".data.reverse.isPrefixOf n.data.reverse
    && (cfg.APP_NAME ++ "_v").data.length + 4 ≤ n.data.length

/-- The sort order of `backups.sort(key=lambda x: x.stat().st_mtime,
reverse=True)`: most recently modified first. -/
def mtimeDescOrder (a b : Backup) : Prop := b.mtime ≤ a.mtime

instance : DecidableRel mtimeDescOrder :=
  fun a b => inferInstanceAs (Decidable (b.mtime ≤ a.mtime))

instance : IsTotal Backup mtimeDescOrder := ⟨fun a b => Nat.le_total b.mtime a.mtime⟩

instance : IsTrans Backup mtimeDescOrder :=
  ⟨fun _ _ _ hab hbc => Nat.le_trans hbc hab⟩

/-- `SelfUpdater._cleanup_old_backups`: glob the backup directory, sort by
modification time descending (Python's sort is stable, as is insertion
sort with this order), and unlink every entry beyond `MAX_BACKUP_COUNT`. -/
def cleanupOldBackups (cfg : Config) (s : St) : St × List Event :=
  let matching := s.backups.filter (fun b => matchesBackupGlob cfg b.name)
  let sorted := List.insertionSort mtimeDescOrder matching
  let doomed := sorted.drop cfg.MAX_BACKUP_COUNT
  ({ s with backups := s.backups.filter (fun b => !(doomed.any (fun d => d.name == b.name))) },
   [Event.cleanupBackups])

/-- The list `_cleanup_old_backups` sorts: the glob-matching archives,
most recently modified first.  Entries beyond `MAX_BACKUP_COUNT` of this
list are the ones it unlinks. -/
def evictionSorted (cfg : Config) (s : St) : List Backup :=
  List.insertionSort mtimeDescOrder (s.backups.filter (fun b => matchesBackupGlob cfg b.name))

/-- `SelfUpdater._perform_update_with_info`: download, back up, apply;
roll back when (and only when) the apply step fails; clean up scratch
files and old backups only on full success. -/
def performUpdateWithInfo (cfg : Config) (env : Env) (info : Manifest) (s : St) :
    Bool × St × List Event :=
  match downloadUpdate cfg env info s with
  | (none, s1, e1) => (false, s1, e1)
  | (some fname, s1, e1) =>
    match createBackup cfg env s1 with
    | (false, s2, e2) => (false, s2, e1 ++ e2)
    | (true, s2, e2) =>
      match applyUpdate env fname s2 with
      | (false, s3, e3) =>
        match rollback cfg env s3 with
        | (_, s4, e4) => (false, s4, e1 ++ e2 ++ e3 ++ e4)
      | (true, s3, e3) =>
        match cleanupTempFiles s3 with
        | (s4, e4) =>
          match cleanupOldBackups cfg s4 with
          | (s5, e5) => (true, s5, e1 ++ e2 ++ e3 ++ e4 ++ e5)

/-- The body of `SelfUpdater._check_and_update`, with `Except.error`
modelling an exception escaping to the outer `except` handler (here only
the `ValueError` that `semver.compare` raises on an invalid version
string); the error carries the state and events at the raise point. -/
def checkAndUpdateE (cfg : Config) (hasCallback : Bool) (env : Env) (s : St) :
    Except (PyError × St × List Event) (Outcome × St × List Event) :=
  match env.manifest with
  | none => .ok (.failed, s, [Event.report .failed])
  | some info =>
    if !truthy info.version then .ok (.failed, s, [Event.report .failed])
    else
      match semverCompare (info.version.getD "") cfg.VERSION with
      | none => .error (.valueError, s, [])
      | some c =>
        if c > 0 then
          match performUpdateWithInfo cfg env info s with
          | (true, s1, evs) =>
            .ok (.applied, s1,
                 evs ++ [Event.report .applied]
                     ++ (if hasCallback then [Event.invokeRestart] else []))
          | (false, s1, evs) => .ok (.failed, s1, evs ++ [Event.report .failed])
        else .ok (.noUpdate, s, [Event.report .noUpdate])

/-- `SelfUpdater._check_and_update` with its outer `try/except`: every
escaped exception is converted into a normal return. -/
def checkAndUpdate (cfg : Config) (hasCallback : Bool) (env : Env) (s : St) :
    Outcome × St × List Event :=
  match checkAndUpdateE cfg hasCallback env s with
  | .ok r => r
  | .error (_, s1, evs) => (.failed, s1, evs ++ [Event.report .failed])

/-- `SelfUpdater._periodic_update_check`, run for finitely many
iterations of its unconditional `while True` loop, one environment per
cycle; each iteration runs a cycle and then sleeps the fixed interval. -/
def schedulerRun (cfg : Config) (hasCallback : Bool) : List Env → St → St × List Event
  | [], s => (s, [])
  | env :: rest, s =>
    match checkAndUpdate cfg hasCallback env s with
    | (_, s1, evs) =>
      match schedulerRun cfg hasCallback rest s1 with
      | (s2, evs2) => (s2, evs ++ Event.sleepInterval :: evs2)

/-- `e₁` occurs strictly before `e₂` in the event list. -/
def eventBefore (e₁ e₂ : Event) (l : List Event) : Prop :=
  ∃ l₁ l₂ l₃, l = l₁ ++ e₁ :: l₂ ++ e₂ :: l₃

/-- Recognize outcome-report events. -/
def isReport : Event → Bool
  | .report _ => true
  | _ => false

/-! ### Concrete fixtures used by witnesses and counterexamples -/

/-- A small installation: one scratch-free state with one installed file. -/
def stA : St := ⟨[], [], [("app.py", "old")], 0⟩

/-- An environment whose every external effect succeeds and whose
manifest advertises version `2.0.0` with a matching checksum. -/
def envAllOk : Env :=
  ⟨some ⟨some "2.0.0", some "ABC"⟩, true, true, [("app.py", "new")], "abc",
   true, true, [], true, []⟩

/-- Like `envAllOk` but the manifest has no `checksum` field. -/
def envNoChecksum : Env :=
  ⟨some ⟨some "2.0.0", none⟩, true, true, [("app.py", "new")], "whatever",
   true, true, [], true, []⟩

/-- Like `envAllOk` but the downloaded bytes' digest does not match the
manifest checksum. -/
def envChecksumBad : Env :=
  ⟨some ⟨some "2.0.0", some "beef"⟩, true, true, [("app.py", "new")], "dead",
   true, true, [], true, []⟩

/-- Like `envAllOk` but extraction of the update archive fails. -/
def envApplyFail : Env :=
  ⟨some ⟨some "2.0.0", some "ABC"⟩, true, true, [("app.py", "new")], "abc",
   true, false, [], true, []⟩

/-- Like `envApplyFail`, with the failed extraction having written one
entry before raising, leaving a half-updated installation. -/
def envApplyPartial : Env :=
  ⟨some ⟨some "2.0.0", some "ABC"⟩, true, true, [("app.py", "new")], "abc",
   true, false, [("app.py", "half")], true, []⟩

/-- A state holding a stale archive under the `with_suffix`-mangled name
`nametag_v1.0.zip` (as a backup taken while version `1.0` ran would
leave), but no archive named for the running version `1.0.16`. -/
def stC : St :=
  ⟨[], [⟨"nametag_v1.0.zip", 0, [("app.py", "stale")]⟩], [("app.py", "cur")], 1⟩

/-- Like `envAllOk` but the download request fails. -/
def envDownFail : Env :=
  ⟨some ⟨some "2.0.0", some "ABC"⟩, false, true, [("app.py", "new")], "abc",
   true, true, [], true, []⟩

/-- An environment in which the manifest fetch itself fails. -/
def envFetchFail : Env :=
  ⟨none, true, true, [], "", true, true, [], true, []⟩

/-- An environment whose manifest version is truthy but not a valid
semantic version, so `semver.compare` raises. -/
def envBadVersion : Env :=
  ⟨some ⟨some "bogus", some "ABC"⟩, true, true, [("app.py", "new")], "abc",
   true, true, [], true, []⟩

/-- A backup directory holding seven conventionally named archives with
scrambled modification times plus one unrelated file, for the eviction
witness. -/
def stB : St :=
  ⟨[], [⟨"nametag_v1.0.10.zip", 3, []⟩, ⟨"nametag_v1.0.11.zip", 7, []⟩,
        ⟨"nametag_v1.0.12.zip", 1, []⟩, ⟨"nametag_v1.0.13.zip", 6, []⟩,
        ⟨"nametag_v1.0.14.zip", 2, []⟩, ⟨"nametag_v1.0.15.zip", 5, []⟩,
        ⟨"nametag_v1.0.16.zip", 4, []⟩, ⟨"README.txt", 9, []⟩],
   [("app.py", "old")], 10⟩

end SelfUpdate

namespace SelfUpdate

/-! ### Supporting lemmas: scratch files -/

/-- Overwriting a scratch file in place makes it findable with the new
content. -/
theorem find?_map_overwrite (n : String) (c : Dir) :
    ∀ l : List TempFile, l.any (fun t => t.name == n) = true →
      (l.map (fun t => if t.name == n then (⟨n, c⟩ : TempFile) else t)).find?
        (fun t => t.name == n) = some ⟨n, c⟩
  | [], h => by simp at h
  | x :: xs, h => by
    by_cases hx : (x.name == n) = true
    · rw [List.map_cons, if_pos hx, List.find?_cons_of_pos _ (by simp)]
    · simp only [List.any_cons, hx, Bool.false_or] at h
      rw [List.map_cons, if_neg hx,
          List.find?_cons_of_neg (p := fun t : TempFile => t.name == n) _ hx]
      exact find?_map_overwrite n c xs h

/-- Appending a fresh scratch file makes it findable. -/
theorem find?_append_new (n : String) (c : Dir) :
    ∀ l : List TempFile, l.any (fun t => t.name == n) = false →
      (l ++ [(⟨n, c⟩ : TempFile)]).find? (fun t => t.name == n) = some ⟨n, c⟩
  | [], _ => by simp
  | x :: xs, h => by
    simp only [List.any_cons, Bool.or_eq_false_iff] at h
    simp [h.1, find?_append_new n c xs h.2]

/-- After `writeTemp`, the written file is present with the written
content. -/
theorem writeTemp_find (s : St) (n : String) (c : Dir) :
    (writeTemp s n c).temp.find? (fun t => t.name == n) = some ⟨n, c⟩ := by
  unfold writeTemp
  cases h : s.temp.any (fun t => t.name == n) with
  | false => simp only [h, Bool.false_eq_true, if_false]
             exact find?_append_new n c s.temp h
  | true => simp only [h, if_true]
            exact find?_map_overwrite n c s.temp h

/-- After `writeTemp`, a file of the written name exists. -/
theorem writeTemp_any (s : St) (n : String) (c : Dir) :
    (writeTemp s n c).temp.any (fun t => t.name == n) = true := by
  have h := writeTemp_find s n c
  have hm := List.mem_of_find?_eq_some h
  exact List.any_eq_true.mpr ⟨⟨n, c⟩, hm, by simp⟩

/-- After `unlinkTemp`, no file of the unlinked name remains. -/
theorem unlinkTemp_gone (s : St) (n : String) :
    (unlinkTemp s n).temp.any (fun t => t.name == n) = false := by
  rw [Bool.eq_false_iff]
  intro hcon
  obtain ⟨t, ht, hn⟩ := List.any_eq_true.mp hcon
  have := (List.mem_filter.mp ht).2
  simp [hn] at this

/-- Characterization of a successful `_download_update`: it names the
scratch file after the manifest version and writes the downloaded bytes
there. -/
theorem downloadUpdate_some {cfg : Config} {env : Env} {info : Manifest} {s : St}
    {fname : String} {s1 : St} {e1 : List Event}
    (h : downloadUpdate cfg env info s = (some fname, s1, e1)) :
    ∃ v, info.version = some v ∧ fname = "update_" ++ v ++ ".zip" ∧
      s1 = writeTemp s fname env.downloadedContent ∧ e1 = [Event.downloadAttempt] := by
  unfold downloadUpdate at h
  split at h
  · exact absurd h (by simp)
  · next v hv =>
    refine ⟨v, hv, ?_⟩
    split at h
    · exact absurd h (by simp)
    · split at h
      · exact absurd h (by simp)
      · split at h
        · split at h
          · exact absurd h (by simp)
          · simp only [Prod.mk.injEq] at h
            obtain ⟨h1, h2, h3⟩ := h
            obtain rfl : "update_" ++ v ++ ".zip" = fname := Option.some.inj h1
            exact ⟨rfl, h2.symm, h3.symm⟩
        · simp only [Prod.mk.injEq] at h
          obtain ⟨h1, h2, h3⟩ := h
          obtain rfl : "update_" ++ v ++ ".zip" = fname := Option.some.inj h1
          exact ⟨rfl, h2.symm, h3.symm⟩

/-! ### C2 -/

/-- C2: on a checksum mismatch (case-insensitive SHA-256 comparison
against the manifest value) the fetch step fails, the downloaded scratch
package is deleted so no file of its name remains, and the cycle attempts
neither backup creation nor installation. -/
theorem C2_checksum_mismatch_discards (cfg : Config) (env : Env) (info : Manifest)
    (s : St) (v ec : String)
    (hv : info.version = some v) (hec : info.checksum = some ec)
    (htc : truthy info.checksum = true) (hvc : cfg.VERIFY_CHECKSUMS = true)
    (hreq : env.requestOk = true) (hstr : env.streamOk = true)
    (hmm : checksumMatches env.downloadedDigest ec = false) :
    (performUpdateWithInfo cfg env info s).1 = false ∧
    (performUpdateWithInfo cfg env info s).2.1.temp.any
        (fun t => t.name == ("update_" ++ v ++ ".zip")) = false ∧
    Event.checksumMismatch ∈ (performUpdateWithInfo cfg env info s).2.2 ∧
    Event.backupAttempt ∉ (performUpdateWithInfo cfg env info s).2.2 ∧
    Event.applyAttempt ∉ (performUpdateWithInfo cfg env info s).2.2 := by
  have hdl : downloadUpdate cfg env info s =
      (none, unlinkTemp (writeTemp s ("update_" ++ v ++ ".zip") env.downloadedContent)
               ("update_" ++ v ++ ".zip"),
       [Event.downloadAttempt, Event.checksumMismatch]) := by
    rw [hec] at htc
    simp [downloadUpdate, hv, hreq, hstr, htc, hvc, hec, hmm]
  simp [performUpdateWithInfo, hdl, unlinkTemp_gone]

/-- Witness for C2: digest `dead` against checksum `beef` — fetch fails,
the scratch file is gone, no backup or apply is attempted. -/
theorem C2_witness :
    checksumMatches envChecksumBad.downloadedDigest "beef" = false ∧
    ((performUpdateWithInfo defaultConfig envChecksumBad ⟨some "2.0.0", some "beef"⟩ stA).1
        = false ∧
     (performUpdateWithInfo defaultConfig envChecksumBad ⟨some "2.0.0", some "beef"⟩
          stA).2.1.temp.any (fun t => t.name == ("update_" ++ "2.0.0" ++ ".zip")) = false ∧
     Event.checksumMismatch
        ∈ (performUpdateWithInfo defaultConfig envChecksumBad
            ⟨some "2.0.0", some "beef"⟩ stA).2.2 ∧
     Event.backupAttempt
        ∉ (performUpdateWithInfo defaultConfig envChecksumBad
            ⟨some "2.0.0", some "beef"⟩ stA).2.2 ∧
     Event.applyAttempt
        ∉ (performUpdateWithInfo defaultConfig envChecksumBad
            ⟨some "2.0.0", some "beef"⟩ stA).2.2) :=
  ⟨by decide,
   C2_checksum_mismatch_discards defaultConfig envChecksumBad ⟨some "2.0.0", some "beef"⟩
     stA "2.0.0" "beef" rfl rfl (by decide) (by decide) (by decide) (by decide) (by decide)⟩

end SelfUpdate

namespace SelfUpdate

/-! ### C7 -/

/-- C7: when the fetched manifest's version compares equal to the running
version under semver precedence, the cycle performs no filesystem
mutation — no backup, no temp file, installation directory unchanged (the
whole state is returned untouched and the cycle reports no-update). -/
theorem C7_equal_version_no_mutation (cfg : Config) (cb : Bool) (env : Env) (s : St)
    (info : Manifest) (v : String)
    (hm : env.manifest = some info) (hv : info.version = some v)
    (ht : truthy info.version = true)
    (hc : semverCompare v cfg.VERSION = some 0) :
    checkAndUpdate cfg cb env s = (.noUpdate, s, [Event.report .noUpdate]) := by
  simp [checkAndUpdate, checkAndUpdateE, hm, hv, ht, hv ▸ ht, hc]

/-- Witness for C7 at the shipped configuration: remote version `1.0.16`
equals the running version and the state is returned unchanged. -/
theorem C7_witness :
    (⟨some ⟨some "1.0.16", some "ABC"⟩, true, true, [("app.py", "new")], "abc",
      true, true, [], true, []⟩ : Env).manifest = some ⟨some "1.0.16", some "ABC"⟩ ∧
    semverCompare "1.0.16" defaultConfig.VERSION = some 0 ∧
    checkAndUpdate defaultConfig true
      ⟨some ⟨some "1.0.16", some "ABC"⟩, true, true, [("app.py", "new")], "abc",
       true, true, [], true, []⟩ stA
      = (.noUpdate, stA, [Event.report .noUpdate]) :=
  ⟨rfl, by decide,
   C7_equal_version_no_mutation defaultConfig true _ stA ⟨some "1.0.16", some "ABC"⟩
     "1.0.16" rfl rfl (by decide) (by decide)⟩

/-! ### C10 -/

/-- C10: when the fetched manifest's version parses and compares strictly
less than the running version under semver precedence, the cycle performs
no download, no backup, and no modification of the installation directory
— the state is returned untouched, so a downgrade is never applied. -/
theorem C10_downgrade_never_applied (cfg : Config) (cb : Bool) (env : Env) (s : St)
    (info : Manifest) (v : String) (c : Int)
    (hm : env.manifest = some info) (hv : info.version = some v)
    (ht : truthy info.version = true)
    (hc : semverCompare v cfg.VERSION = some c) (hlt : c < 0) :
    checkAndUpdate cfg cb env s = (.noUpdate, s, [Event.report .noUpdate]) := by
  have hng : ¬(c > 0) := by omega
  simp [checkAndUpdate, checkAndUpdateE, hm, hv, ht, hv ▸ ht, hc, hng]

/-- Witness for C10 at the shipped configuration: remote version `0.9.0`
is older than the running `1.0.16` and the state is returned unchanged. -/
theorem C10_witness :
    semverCompare "0.9.0" defaultConfig.VERSION = some (-1) ∧ (-1 : Int) < 0 ∧
    checkAndUpdate defaultConfig true
      ⟨some ⟨some "0.9.0", some "ABC"⟩, true, true, [("app.py", "new")], "abc",
       true, true, [], true, []⟩ stA
      = (.noUpdate, stA, [Event.report .noUpdate]) :=
  ⟨by decide, by decide,
   C10_downgrade_never_applied defaultConfig true _ stA ⟨some "0.9.0", some "ABC"⟩
     "0.9.0" (-1) rfl rfl (by decide) (by decide) (by decide)⟩

/-! ### Supporting lemmas: the orchestrator's stages -/

/-- A successful `_create_backup` stores the snapshot under the
version-derived name and leaves scratch and installation alone. -/
theorem createBackup_ok {cfg : Config} {env : Env} (s : St) (hbk : env.backupOk = true) :
    createBackup cfg env s =
      (true,
       ⟨s.temp, setBackup s.backups ⟨cfg.backupZipName, s.clock, s.install⟩, s.install,
        s.clock + 1⟩,
       [Event.backupAttempt]) := by
  simp [createBackup, hbk]

/-- A failing apply step extracts at most a partial archive and reports
failure. -/
theorem applyUpdate_fail {env : Env} {fname : String} {tp : List TempFile}
    {bk : List Backup} {inst : Dir} {ck : Nat} {t : TempFile}
    (hf : tp.find? (fun x => x.name == fname) = some t) (hap : env.applyOk = false) :
    applyUpdate env fname ⟨tp, bk, inst, ck⟩ =
      (false, ⟨tp, bk, extractAll env.applyPartial inst, ck⟩, [Event.applyAttempt]) := by
  simp [applyUpdate, hf, hap]

/-- Whatever branch `_rollback` takes, its event list starts with the
rollback attempt, and it never touches the scratch directory. -/
theorem rollback_shape (cfg : Config) (env : Env) (s : St) :
    ∃ ok s4 tl, rollback cfg env s = (ok, s4, Event.rollbackAttempt :: tl) ∧
      s4.temp = s.temp := by
  unfold rollback
  split
  · exact ⟨false, s, [Event.rollbackNoBackup], rfl, rfl⟩
  · split
    · exact ⟨true, _, [], rfl, rfl⟩
    · exact ⟨false, _, [], rfl, rfl⟩

/-- `_download_update` never attempts a rollback. -/
theorem downloadUpdate_no_rollback (cfg : Config) (env : Env) (info : Manifest) (s : St) :
    Event.rollbackAttempt ∉ (downloadUpdate cfg env info s).2.2 := by
  unfold downloadUpdate
  rcases info.version with _ | v
  · simp
  · simp only []
    split_ifs <;> simp

/-- When the apply step fails after download and backup succeeded, the
orchestrator fails with a rollback attempt recorded after the apply
attempt. -/
theorem perform_apply_fail {cfg : Config} {env : Env} {info : Manifest} {s : St}
    {fname : String} {s1 : St} {e1 : List Event}
    (hdl : downloadUpdate cfg env info s = (some fname, s1, e1))
    (hbk : env.backupOk = true) (hap : env.applyOk = false) :
    ∃ tl s4, performUpdateWithInfo cfg env info s =
      (false, s4,
       e1 ++ [Event.backupAttempt] ++ [Event.applyAttempt]
          ++ (Event.rollbackAttempt :: tl)) ∧ s4.temp = s1.temp := by
  obtain ⟨v, hv, hfn, hs1, he1⟩ := downloadUpdate_some hdl
  have hfind : s1.temp.find? (fun x => x.name == fname)
      = some ⟨fname, env.downloadedContent⟩ := by
    rw [hs1]; exact writeTemp_find s fname env.downloadedContent
  obtain ⟨ok, s4, tl, hrb, htemp⟩ :=
    rollback_shape cfg env
      ⟨s1.temp, setBackup s1.backups ⟨cfg.backupZipName, s1.clock, s1.install⟩,
       extractAll env.applyPartial s1.install, s1.clock + 1⟩
  refine ⟨tl, s4, ?_, htemp⟩
  simp only [performUpdateWithInfo, hdl, createBackup_ok s1 hbk,
             applyUpdate_fail hfind hap, hrb]

/-- When the manifest is usable and strictly newer, `_check_and_update`
runs the orchestrator and reports its outcome (requesting a restart on
success when a callback is installed). -/
theorem checkAndUpdate_perform {cfg : Config} {cb : Bool} {env : Env} {s : St}
    {info : Manifest} {v : String} {c : Int}
    (hm : env.manifest = some info) (hv : info.version = some v)
    (ht : truthy info.version = true) (hc : semverCompare v cfg.VERSION = some c)
    (hpos : c > 0) :
    checkAndUpdate cfg cb env s =
      (if (performUpdateWithInfo cfg env info s).1 then
        (.applied, (performUpdateWithInfo cfg env info s).2.1,
         (performUpdateWithInfo cfg env info s).2.2 ++ [Event.report .applied]
            ++ (if cb then [Event.invokeRestart] else []))
       else
        (.failed, (performUpdateWithInfo cfg env info s).2.1,
         (performUpdateWithInfo cfg env info s).2.2 ++ [Event.report .failed])) := by
  rcases hpu : performUpdateWithInfo cfg env info s with ⟨ok, s2, evs⟩
  cases ok <;>
    simp [checkAndUpdate, checkAndUpdateE, hm, hv, ht, hv ▸ ht, hc, hpos, hpu]

/-! ### C1 -/

/-- C1 (code bug): rollback does not look up the backup archive named
for the currently running version.  `_create_backup` writes
`nametag_v1.0.16.zip` (`make_archive` appends `.zip`), but `_rollback`
checks `get_backup_path().with_suffix('.zip')` = `nametag_v1.0.zip`,
since `with_suffix` replaces the version's last dot-component.  So in the
claim's own scenario — backup just created, apply fails — rollback
reports no-backup and the installation stays partially updated although
the running version's backup exists; and conversely, when no archive
named for the running version exists but a stale mangled-name file does,
rollback extracts it and modifies the installation instead of returning
the no-backup error. -/
theorem C1_rollback_name_bug :
    Config.backupZipName defaultConfig = "nametag_v1.0.16.zip" ∧
    Config.rollbackLookupName defaultConfig = "nametag_v1.0.zip" ∧
    ((performUpdateWithInfo defaultConfig envApplyPartial ⟨some "2.0.0", some "ABC"⟩
        stA).2.1.backups.any (fun b => b.name == Config.backupZipName defaultConfig)
      = true ∧
     Event.rollbackNoBackup
       ∈ (performUpdateWithInfo defaultConfig envApplyPartial ⟨some "2.0.0", some "ABC"⟩
            stA).2.2 ∧
     (performUpdateWithInfo defaultConfig envApplyPartial ⟨some "2.0.0", some "ABC"⟩
        stA).2.1.install = [("app.py", "half")]) ∧
    (stC.backups.any (fun b => b.name == Config.backupZipName defaultConfig) = false ∧
     rollback defaultConfig envAllOk stC
       = (true, ⟨[], stC.backups, [("app.py", "stale")], 1⟩,
          [Event.rollbackAttempt])) := by
  decide


/-! ### C3 -/

/-- Counterexample to C3: a manifest with a `version` but *no* `checksum`
field is not unusable — the cycle downloads the package, skips
verification, installs it and reports it applied. -/
theorem C3_counterexample :
    (checkAndUpdate defaultConfig true envNoChecksum stA).1 = .applied ∧
    Event.downloadAttempt ∈ (checkAndUpdate defaultConfig true envNoChecksum stA).2.2 ∧
    Event.applyAttempt ∈ (checkAndUpdate defaultConfig true envNoChecksum stA).2.2 ∧
    (checkAndUpdate defaultConfig true envNoChecksum stA).2.1.install
      = [("app.py", "new")] := by
  refine ⟨by decide, by decide, by decide, by decide⟩

/-- C3 as amended: absence of the `version` field (or an empty one) makes
the manifest unusable — the cycle stops before any download, with the
state untouched.  Absence of the `checksum` field does not: checksum
verification is skipped (no mismatch can be reported) and a completed
transfer is accepted, so the cycle proceeds to install the package
unverified. -/
theorem C3_missing_fields :
    (∀ (cfg : Config) (cb : Bool) (env : Env) (s : St) (info : Manifest),
        env.manifest = some info → truthy info.version = false →
        checkAndUpdate cfg cb env s = (.failed, s, [Event.report .failed])) ∧
    (∀ (cfg : Config) (env : Env) (info : Manifest) (s : St),
        info.checksum = none →
        Event.checksumMismatch ∉ (downloadUpdate cfg env info s).2.2) ∧
    (∀ (cfg : Config) (env : Env) (info : Manifest) (s : St) (v : String),
        info.version = some v → info.checksum = none →
        env.requestOk = true → env.streamOk = true →
        (downloadUpdate cfg env info s).1 = some ("update_" ++ v ++ ".zip")) := by
  refine ⟨?_, ?_, ?_⟩
  · intro cfg cb env s info hm ht
    simp [checkAndUpdate, checkAndUpdateE, hm, ht]
  · intro cfg env info s hc
    unfold downloadUpdate
    rcases info.version with _ | v
    · simp
    · simp only [hc]
      split_ifs <;> simp_all [truthy]
  · intro cfg env info s v hv hc hreq hstr
    simp [downloadUpdate, hv, hc, hreq, hstr, truthy]

/-- Witness for C3's amended statement: a truthy-but-absent version stops
the cycle; a checksum-free manifest downloads without a mismatch event
and yields the package file. -/
theorem C3_missing_fields_witness :
    checkAndUpdate defaultConfig true
        (⟨some ⟨none, some "ABC"⟩, true, true, [("app.py", "new")], "abc",
          true, true, [], true, []⟩ : Env) stA
      = (.failed, stA, [Event.report .failed]) ∧
    Event.checksumMismatch
      ∉ (downloadUpdate defaultConfig envNoChecksum ⟨some "2.0.0", none⟩ stA).2.2 ∧
    (downloadUpdate defaultConfig envNoChecksum ⟨some "2.0.0", none⟩ stA).1
      = some ("update_" ++ "2.0.0" ++ ".zip") :=
  ⟨C3_missing_fields.1 defaultConfig true _ stA ⟨none, some "ABC"⟩ rfl (by decide),
   C3_missing_fields.2.1 defaultConfig envNoChecksum ⟨some "2.0.0", none⟩ stA rfl,
   C3_missing_fields.2.2 defaultConfig envNoChecksum ⟨some "2.0.0", none⟩ stA "2.0.0"
     rfl rfl (by decide) (by decide)⟩

/-! ### C4 -/

/-- Counterexample to C4: after an installation (apply) failure the
downloaded package file is *not* deleted — the cycle rolls back and
returns with `update_2.0.0.zip` still present in scratch storage. -/
theorem C4_counterexample :
    (performUpdateWithInfo defaultConfig envApplyFail ⟨some "2.0.0", some "ABC"⟩ stA).1
      = false ∧
    (performUpdateWithInfo defaultConfig envApplyFail ⟨some "2.0.0", some "ABC"⟩
        stA).2.1.temp.any (fun t => t.name == "update_2.0.0.zip") = true := by
  refine ⟨by decide, by decide⟩

/-- C4 as amended: the downloaded package file is deleted after a fully
successful cycle (all scratch files are) and after a checksum
verification failure; but after an installation failure the package file
remains in scratch storage — it is only removed by a later successful
cycle's cleanup. -/
theorem C4_temp_cleanup :
    (∀ (cfg : Config) (env : Env) (info : Manifest) (s : St),
        (performUpdateWithInfo cfg env info s).1 = true →
        (performUpdateWithInfo cfg env info s).2.1.temp = []) ∧
    (∀ (cfg : Config) (env : Env) (info : Manifest) (s : St) (v ec : String),
        info.version = some v → info.checksum = some ec →
        truthy info.checksum = true → cfg.VERIFY_CHECKSUMS = true →
        env.requestOk = true → env.streamOk = true →
        checksumMatches env.downloadedDigest ec = false →
        (performUpdateWithInfo cfg env info s).2.1.temp.any
            (fun t => t.name == ("update_" ++ v ++ ".zip")) = false) ∧
    (∀ (cfg : Config) (env : Env) (info : Manifest) (s : St)
        (fname : String) (s1 : St) (e1 : List Event),
        downloadUpdate cfg env info s = (some fname, s1, e1) →
        env.backupOk = true → env.applyOk = false →
        (performUpdateWithInfo cfg env info s).2.1.temp.any
            (fun t => t.name == fname) = true) := by
  refine ⟨?_, ?_, ?_⟩
  · intro cfg env info s h
    rcases hdd : downloadUpdate cfg env info s with ⟨o, s1, e1⟩
    cases o with
    | none => simp [performUpdateWithInfo, hdd] at h
    | some fname =>
      rcases hcb : createBackup cfg env s1 with ⟨b2, s2, e2⟩
      cases b2 with
      | false => simp [performUpdateWithInfo, hdd, hcb] at h
      | true =>
        rcases hau : applyUpdate env fname s2 with ⟨b3, s3, e3⟩
        cases b3 with
        | false =>
          rcases hrb : rollback cfg env s3 with ⟨b4, s4, e4⟩
          simp [performUpdateWithInfo, hdd, hcb, hau, hrb] at h
        | true =>
          simp [performUpdateWithInfo, hdd, hcb, hau, cleanupTempFiles,
                cleanupOldBackups]
  · intro cfg env info s v ec hv hec htc hvc hreq hstr hmm
    have hdl : downloadUpdate cfg env info s =
        (none, unlinkTemp (writeTemp s ("update_" ++ v ++ ".zip") env.downloadedContent)
                 ("update_" ++ v ++ ".zip"),
         [Event.downloadAttempt, Event.checksumMismatch]) := by
      rw [hec] at htc
      simp [downloadUpdate, hv, hreq, hstr, htc, hvc, hec, hmm]
    simp [performUpdateWithInfo, hdl, unlinkTemp_gone]
  · intro cfg env info s fname s1 e1 hdl hbk hap
    obtain ⟨v, hv, hfn, hs1, he1⟩ := downloadUpdate_some hdl
    obtain ⟨tl, s4, hpu, htemp⟩ := perform_apply_fail hdl hbk hap
    rw [hpu]
    simp only [htemp, hs1]
    exact writeTemp_any s fname env.downloadedContent

/-- Witness for C4's amended statement: a fully successful cycle empties
scratch storage; a checksum-mismatch cycle leaves no package file; an
apply-failure cycle leaves the package file behind. -/
theorem C4_temp_cleanup_witness :
    ((performUpdateWithInfo defaultConfig envAllOk ⟨some "2.0.0", some "ABC"⟩ stA).1
        = true ∧
     (performUpdateWithInfo defaultConfig envAllOk ⟨some "2.0.0", some "ABC"⟩
        stA).2.1.temp = []) ∧
    (performUpdateWithInfo defaultConfig envChecksumBad ⟨some "2.0.0", some "beef"⟩
        stA).2.1.temp.any (fun t => t.name == ("update_" ++ "2.0.0" ++ ".zip")) = false ∧
    (performUpdateWithInfo defaultConfig envApplyFail ⟨some "2.0.0", some "ABC"⟩
        stA).2.1.temp.any (fun t => t.name == "update_2.0.0.zip") = true :=
  ⟨⟨by decide,
    C4_temp_cleanup.1 defaultConfig envAllOk ⟨some "2.0.0", some "ABC"⟩ stA (by decide)⟩,
   C4_temp_cleanup.2.1 defaultConfig envChecksumBad ⟨some "2.0.0", some "beef"⟩ stA
     "2.0.0" "beef" rfl rfl (by decide) (by decide) (by decide) (by decide) (by decide),
   C4_temp_cleanup.2.2 defaultConfig envApplyFail ⟨some "2.0.0", some "ABC"⟩ stA
     "update_2.0.0.zip" (writeTemp stA "update_2.0.0.zip" [("app.py", "new")])
     [Event.downloadAttempt] rfl rfl rfl⟩

/-! ### Supporting lemmas: report events -/

/-- `_create_backup` performs exactly its attempt event. -/
theorem createBackup_events (cfg : Config) (env : Env) (s : St) :
    (createBackup cfg env s).2.2 = [Event.backupAttempt] := by
  unfold createBackup; split <;> rfl

/-- `_apply_update` performs exactly its attempt event. -/
theorem applyUpdate_events (env : Env) (fname : String) (s : St) :
    (applyUpdate env fname s).2.2 = [Event.applyAttempt] := by
  unfold applyUpdate
  split
  · rfl
  · split <;> rfl

/-- `_rollback` reports no outcome itself. -/
theorem rollback_filter_report (cfg : Config) (env : Env) (s : St) :
    ((rollback cfg env s).2.2).filter isReport = [] := by
  unfold rollback
  split
  · rfl
  · split <;> rfl

/-- `_download_update` reports no outcome itself. -/
theorem downloadUpdate_filter_report (cfg : Config) (env : Env) (info : Manifest) (s : St) :
    ((downloadUpdate cfg env info s).2.2).filter isReport = [] := by
  unfold downloadUpdate
  rcases info.version with _ | v
  · rfl
  · simp only []
    split_ifs <;> rfl

/-- The orchestrator reports no outcome itself; the report is appended by
`_check_and_update`. -/
theorem perform_filter_report (cfg : Config) (env : Env) (info : Manifest) (s : St) :
    ((performUpdateWithInfo cfg env info s).2.2).filter isReport = [] := by
  rcases hdd : downloadUpdate cfg env info s with ⟨o, s1, e1⟩
  have he1 : e1.filter isReport = [] := by
    have := downloadUpdate_filter_report cfg env info s
    rw [hdd] at this; exact this
  cases o with
  | none => simp [performUpdateWithInfo, hdd, he1]
  | some fname =>
    rcases hcb : createBackup cfg env s1 with ⟨b2, s2, e2⟩
    have he2 : e2 = [Event.backupAttempt] := by
      have := createBackup_events cfg env s1
      rw [hcb] at this; exact this
    cases b2 with
    | false =>
      simp [performUpdateWithInfo, hdd, hcb, List.filter_append, he1, he2, isReport]
    | true =>
      rcases hau : applyUpdate env fname s2 with ⟨b3, s3, e3⟩
      have he3 : e3 = [Event.applyAttempt] := by
        have := applyUpdate_events env fname s2
        rw [hau] at this; exact this
      cases b3 with
      | false =>
        rcases hrb : rollback cfg env s3 with ⟨b4, s4, e4⟩
        have he4 : e4.filter isReport = [] := by
          have := rollback_filter_report cfg env s3
          rw [hrb] at this; exact this
        simp [performUpdateWithInfo, hdd, hcb, hau, hrb, List.filter_append,
              he1, he2, he3, he4, isReport]
      | true =>
        simp [performUpdateWithInfo, hdd, hcb, hau, cleanupTempFiles, cleanupOldBackups,
              List.filter_append, he1, he2, he3, isReport]

/-- Every cycle, whatever its environment, produces exactly one outcome
report, and it reports the cycle's own outcome. -/
theorem cycle_report (cfg : Config) (cb : Bool) (env : Env) (s : St) :
    (checkAndUpdate cfg cb env s).2.2.filter isReport
      = [Event.report (checkAndUpdate cfg cb env s).1] := by
  rcases hm : env.manifest with _ | info
  · simp [checkAndUpdate, checkAndUpdateE, hm, isReport]
  · by_cases ht : truthy info.version = true
    · rcases hc : semverCompare (info.version.getD "") cfg.VERSION with _ | c
      · simp [checkAndUpdate, checkAndUpdateE, hm, ht, hc, isReport]
      · by_cases hpos : c > 0
        · rcases hpu : performUpdateWithInfo cfg env info s with ⟨ok, s2, evs⟩
          have hevs : evs.filter isReport = [] := by
            have := perform_filter_report cfg env info s
            rw [hpu] at this; exact this
          cases ok
          · simp [checkAndUpdate, checkAndUpdateE, hm, ht, hc, hpos, hpu,
                  List.filter_append, hevs, isReport]
          · cases cb <;>
              simp [checkAndUpdate, checkAndUpdateE, hm, ht, hc, hpos, hpu,
                    List.filter_append, hevs, isReport]
        · simp [checkAndUpdate, checkAndUpdateE, hm, ht, hc, hpos, isReport]
    · have ht' : truthy info.version = false := by simpa using ht
      simp [checkAndUpdate, checkAndUpdateE, hm, ht', isReport]

/-! ### C5 -/

/-- C5: no error escapes to the host.  (i) Every cycle turns every
failure path into exactly one outcome report.  (ii) An exception escaping
the cycle's body is caught and converted into a failed outcome carrying
the state at the raise point.  (iii) The scheduler unconditionally
proceeds to the next interval after each cycle.  (iv) A successfully
applied cycle ends in a restart request. -/
theorem C5_total_error_handling :
    (∀ (cfg : Config) (cb : Bool) (env : Env) (s : St),
        (checkAndUpdate cfg cb env s).2.2.filter isReport
          = [Event.report (checkAndUpdate cfg cb env s).1]) ∧
    (∀ (cfg : Config) (cb : Bool) (env : Env) (s : St) (e : PyError) (s1 : St)
        (evs : List Event),
        checkAndUpdateE cfg cb env s = .error (e, s1, evs) →
        checkAndUpdate cfg cb env s = (.failed, s1, evs ++ [Event.report .failed])) ∧
    (∀ (cfg : Config) (cb : Bool) (env : Env) (rest : List Env) (s : St),
        schedulerRun cfg cb (env :: rest) s
          = ((schedulerRun cfg cb rest (checkAndUpdate cfg cb env s).2.1).1,
             (checkAndUpdate cfg cb env s).2.2
               ++ Event.sleepInterval
                  :: (schedulerRun cfg cb rest (checkAndUpdate cfg cb env s).2.1).2)) ∧
    (∀ (cfg : Config) (env : Env) (s : St),
        (checkAndUpdate cfg true env s).1 = .applied →
        Event.invokeRestart ∈ (checkAndUpdate cfg true env s).2.2) := by
  refine ⟨cycle_report, ?_, ?_, ?_⟩
  · intro cfg cb env s e s1 evs h
    simp [checkAndUpdate, h]
  · intro cfg cb env rest s
    rcases h1 : checkAndUpdate cfg cb env s with ⟨o, s1, evs⟩
    rcases h2 : schedulerRun cfg cb rest s1 with ⟨s2, evs2⟩
    simp [schedulerRun, h1, h2]
  · intro cfg env s h
    rcases hm : env.manifest with _ | info
    · simp [checkAndUpdate, checkAndUpdateE, hm] at h
    · by_cases ht : truthy info.version = true
      · rcases hc : semverCompare (info.version.getD "") cfg.VERSION with _ | c
        · simp [checkAndUpdate, checkAndUpdateE, hm, ht, hc] at h
        · by_cases hpos : c > 0
          · rcases hpu : performUpdateWithInfo cfg env info s with ⟨ok, s2, evs⟩
            cases ok
            · simp [checkAndUpdate, checkAndUpdateE, hm, ht, hc, hpos, hpu] at h
            · simp [checkAndUpdate, checkAndUpdateE, hm, ht, hc, hpos, hpu]
          · simp [checkAndUpdate, checkAndUpdateE, hm, ht, hc, hpos] at h
      · have ht' : truthy info.version = false := by simpa using ht
        simp [checkAndUpdate, checkAndUpdateE, hm, ht'] at h

/-- Witness for C5: an unparsable remote version raises inside the body
and is converted to a failed outcome with the state unchanged; a
successful cycle reports applied and requests a restart; one concrete
scheduler step continues past a failed cycle. -/
theorem C5_witness :
    checkAndUpdateE defaultConfig true envBadVersion stA
      = .error (.valueError, stA, []) ∧
    checkAndUpdate defaultConfig true envBadVersion stA
      = (.failed, stA, [] ++ [Event.report .failed]) ∧
    (checkAndUpdate defaultConfig true envAllOk stA).1 = .applied ∧
    Event.invokeRestart ∈ (checkAndUpdate defaultConfig true envAllOk stA).2.2 ∧
    (checkAndUpdate defaultConfig true envFetchFail stA).2.2.filter isReport
      = [Event.report (checkAndUpdate defaultConfig true envFetchFail stA).1] ∧
    schedulerRun defaultConfig true [envFetchFail] stA
      = ((schedulerRun defaultConfig true []
            (checkAndUpdate defaultConfig true envFetchFail stA).2.1).1,
         (checkAndUpdate defaultConfig true envFetchFail stA).2.2
           ++ Event.sleepInterval
              :: (schedulerRun defaultConfig true []
                    (checkAndUpdate defaultConfig true envFetchFail stA).2.1).2) :=
  ⟨rfl,
   C5_total_error_handling.2.1 defaultConfig true envBadVersion stA .valueError stA []
     rfl,
   by decide,
   C5_total_error_handling.2.2.2 defaultConfig envAllOk stA (by decide),
   C5_total_error_handling.1 defaultConfig true envFetchFail stA,
   C5_total_error_handling.2.2.1 defaultConfig true envFetchFail [] stA⟩

/-! ### Supporting lemmas: restart events -/

/-- `_rollback` never requests a restart. -/
theorem rollback_no_restart (cfg : Config) (env : Env) (s : St) :
    Event.invokeRestart ∉ (rollback cfg env s).2.2 := by
  unfold rollback
  split
  · simp
  · split <;> simp

/-- `_download_update` never requests a restart. -/
theorem downloadUpdate_no_restart (cfg : Config) (env : Env) (info : Manifest) (s : St) :
    Event.invokeRestart ∉ (downloadUpdate cfg env info s).2.2 := by
  unfold downloadUpdate
  rcases info.version with _ | v
  · simp
  · simp only []
    split_ifs <;> simp

/-- The orchestrator itself never requests a restart; only
`_check_and_update` invokes the callback. -/
theorem perform_no_restart (cfg : Config) (env : Env) (info : Manifest) (s : St) :
    Event.invokeRestart ∉ (performUpdateWithInfo cfg env info s).2.2 := by
  rcases hdd : downloadUpdate cfg env info s with ⟨o, s1, e1⟩
  have he1 : Event.invokeRestart ∉ e1 := by
    have := downloadUpdate_no_restart cfg env info s
    rw [hdd] at this; exact this
  cases o with
  | none => simpa [performUpdateWithInfo, hdd] using he1
  | some fname =>
    rcases hcb : createBackup cfg env s1 with ⟨b2, s2, e2⟩
    have he2 : e2 = [Event.backupAttempt] := by
      have := createBackup_events cfg env s1
      rw [hcb] at this; exact this
    cases b2 with
    | false => simp [performUpdateWithInfo, hdd, hcb, he2, he1]
    | true =>
      rcases hau : applyUpdate env fname s2 with ⟨b3, s3, e3⟩
      have he3 : e3 = [Event.applyAttempt] := by
        have := applyUpdate_events env fname s2
        rw [hau] at this; exact this
      cases b3 with
      | false =>
        rcases hrb : rollback cfg env s3 with ⟨b4, s4, e4⟩
        have he4 : Event.invokeRestart ∉ e4 := by
          have := rollback_no_restart cfg env s3
          rw [hrb] at this; exact this
        simp [performUpdateWithInfo, hdd, hcb, hau, hrb, he2, he3, he1, he4]
      | true =>
        simp [performUpdateWithInfo, hdd, hcb, hau, cleanupTempFiles, cleanupOldBackups,
              he2, he3, he1]

/-! ### C9 -/

/-- Counterexample to C9: after an applied cycle the scheduler *does*
schedule a further cycle — with a returning restart hook, the loop
sleeps and runs the next check (which here fails), so a failure report
occurs after the restart invocation. -/
theorem C9_counterexample :
    (checkAndUpdate defaultConfig true envAllOk stA).1 = .applied ∧
    eventBefore .invokeRestart (.report .failed)
      (schedulerRun defaultConfig true [envAllOk, envFetchFail] stA).2 :=
  ⟨by decide,
   ⟨[.downloadAttempt, .backupAttempt, .applyAttempt, .cleanupTemp, .cleanupBackups,
     .report .applied], [.sleepInterval], [.sleepInterval], by decide⟩⟩

/-- C9 as amended: after an applied outcome the restart hook is invoked
synchronously, immediately after the outcome report (and only when a
callback is installed); but the loop itself is unconditional — it sleeps
and schedules a further cycle even after an applied outcome, relying on
the hook not returning.  After any outcome it waits the interval and
runs the next cycle, indefinitely, with no stop operation: every
scheduled cycle runs and reports. -/
theorem C9_scheduler_behavior :
    (∀ (cfg : Config) (env : Env) (s : St) (s1 : St) (evs : List Event),
        checkAndUpdate cfg true env s = (.applied, s1, evs) →
        ∃ l, evs = l ++ [Event.report .applied, Event.invokeRestart]) ∧
    (∀ (cfg : Config) (env : Env) (s : St) (s1 : St) (evs : List Event),
        checkAndUpdate cfg false env s = (.applied, s1, evs) →
        Event.invokeRestart ∉ evs) ∧
    (∀ (cfg : Config) (cb : Bool) (env : Env) (rest : List Env) (s : St),
        (schedulerRun cfg cb (env :: rest) s).2
          = (checkAndUpdate cfg cb env s).2.2
             ++ Event.sleepInterval
                :: (schedulerRun cfg cb rest (checkAndUpdate cfg cb env s).2.1).2) ∧
    (∀ (cfg : Config) (cb : Bool) (envs : List Env) (s : St),
        ((schedulerRun cfg cb envs s).2.filter isReport).length = envs.length) := by
  refine ⟨?_, ?_, ?_, ?_⟩
  · intro cfg env s s1 evs h
    rcases hm : env.manifest with _ | info
    · simp [checkAndUpdate, checkAndUpdateE, hm] at h
    · by_cases ht : truthy info.version = true
      · rcases hc : semverCompare (info.version.getD "") cfg.VERSION with _ | c
        · simp [checkAndUpdate, checkAndUpdateE, hm, ht, hc] at h
        · by_cases hpos : c > 0
          · rcases hpu : performUpdateWithInfo cfg env info s with ⟨ok, s2, pevs⟩
            cases ok
            · simp [checkAndUpdate, checkAndUpdateE, hm, ht, hc, hpos, hpu] at h
            · simp [checkAndUpdate, checkAndUpdateE, hm, ht, hc, hpos, hpu] at h
              exact ⟨pevs, h.2.symm⟩
          · simp [checkAndUpdate, checkAndUpdateE, hm, ht, hc, hpos] at h
      · have ht' : truthy info.version = false := by simpa using ht
        simp [checkAndUpdate, checkAndUpdateE, hm, ht'] at h
  · intro cfg env s s1 evs h
    rcases hm : env.manifest with _ | info
    · simp [checkAndUpdate, checkAndUpdateE, hm] at h
    · by_cases ht : truthy info.version = true
      · rcases hc : semverCompare (info.version.getD "") cfg.VERSION with _ | c
        · simp [checkAndUpdate, checkAndUpdateE, hm, ht, hc] at h
        · by_cases hpos : c > 0
          · rcases hpu : performUpdateWithInfo cfg env info s with ⟨ok, s2, pevs⟩
            have hnr : Event.invokeRestart ∉ pevs := by
              have := perform_no_restart cfg env info s
              rw [hpu] at this; exact this
            cases ok
            · simp [checkAndUpdate, checkAndUpdateE, hm, ht, hc, hpos, hpu] at h
            · simp [checkAndUpdate, checkAndUpdateE, hm, ht, hc, hpos, hpu] at h
              rw [← h.2]
              simpa using hnr
          · simp [checkAndUpdate, checkAndUpdateE, hm, ht, hc, hpos] at h
      · have ht' : truthy info.version = false := by simpa using ht
        simp [checkAndUpdate, checkAndUpdateE, hm, ht'] at h
  · intro cfg cb env rest s
    rcases h1 : checkAndUpdate cfg cb env s with ⟨o, s1, evs⟩
    rcases h2 : schedulerRun cfg cb rest s1 with ⟨s2, evs2⟩
    simp [schedulerRun, h1, h2]
  · intro cfg cb envs s
    induction envs generalizing s with
    | nil => simp [schedulerRun]
    | cons env rest ih =>
      rcases h1 : checkAndUpdate cfg cb env s with ⟨o, s1, evs⟩
      rcases h2 : schedulerRun cfg cb rest s1 with ⟨s2, evs2⟩
      have hev : evs.filter isReport = [Event.report o] := by
        have := cycle_report cfg cb env s
        rw [h1] at this; exact this
      have ih1 := ih s1
      rw [h2] at ih1
      simp only [schedulerRun, h1, h2, List.filter_append, List.filter_cons]
      simp [hev, isReport, ih1]

/-- Witness for C9's amended statement at concrete cycles: the applied
cycle's events end in the report followed by the restart invocation; with
no callback installed no restart is invoked; a concrete scheduler step
unrolls; two scheduled cycles produce two reports. -/
theorem C9_scheduler_behavior_witness :
    (∃ l, (checkAndUpdate defaultConfig true envAllOk stA).2.2
        = l ++ [Event.report .applied, Event.invokeRestart]) ∧
    Event.invokeRestart ∉ (checkAndUpdate defaultConfig false envAllOk stA).2.2 ∧
    (schedulerRun defaultConfig true [envAllOk, envFetchFail] stA).2
      = (checkAndUpdate defaultConfig true envAllOk stA).2.2
         ++ Event.sleepInterval
            :: (schedulerRun defaultConfig true [envFetchFail]
                  (checkAndUpdate defaultConfig true envAllOk stA).2.1).2 ∧
    ((schedulerRun defaultConfig true [envAllOk, envFetchFail] stA).2.filter
        isReport).length = 2 :=
  ⟨C9_scheduler_behavior.1 defaultConfig envAllOk stA
     (checkAndUpdate defaultConfig true envAllOk stA).2.1
     (checkAndUpdate defaultConfig true envAllOk stA).2.2 (by decide),
   C9_scheduler_behavior.2.1 defaultConfig envAllOk stA
     (checkAndUpdate defaultConfig false envAllOk stA).2.1
     (checkAndUpdate defaultConfig false envAllOk stA).2.2 (by decide),
   C9_scheduler_behavior.2.2.1 defaultConfig true envAllOk [envFetchFail] stA,
   C9_scheduler_behavior.2.2.2 defaultConfig true [envAllOk, envFetchFail] stA⟩

/-! ### Supporting lemmas: the backup slot -/

/-- Overwriting leaves entries of other names untouched. -/
theorem map_if_name_eq {nb : Backup} :
    ∀ {l : List Backup}, (∀ x ∈ l, (x.name == nb.name) = false) →
      l.map (fun x => if x.name == nb.name then nb else x) = l
  | [], _ => rfl
  | x :: xs, h => by
    have hx := h x (List.mem_cons_self x xs)
    rw [List.map_cons, if_neg (by simp [hx]),
        map_if_name_eq (fun y hy => h y (List.mem_cons_of_mem x hy))]

/-- Overwriting the unique entry of the archive's name leaves exactly the
new archive under that name. -/
theorem filter_map_overwrite :
    ∀ (l : List Backup) (nb : Backup), (l.map Backup.name).Nodup →
      l.any (fun x => x.name == nb.name) = true →
      (l.map (fun x => if x.name == nb.name then nb else x)).filter
          (fun b => b.name == nb.name) = [nb]
  | [], nb, _, h => by simp at h
  | x :: xs, nb, hnd, h => by
    rw [List.map_cons] at hnd
    have hnd' := List.nodup_cons.mp hnd
    by_cases hx : (x.name == nb.name) = true
    · have hxeq : x.name = nb.name := by simpa using hx
      have hnotin : ∀ y ∈ xs, (y.name == nb.name) = false := by
        intro y hy
        rw [Bool.eq_false_iff]
        intro hcon
        have hyeq : y.name = nb.name := by simpa using hcon
        exact hnd'.1 (hxeq ▸ hyeq ▸ List.mem_map_of_mem Backup.name hy)
      rw [List.map_cons, if_pos hx, List.filter_cons_of_pos (by simp),
          map_if_name_eq hnotin, List.filter_eq_nil_iff.mpr
            (fun y hy => by simp [hnotin y hy])]
    · simp only [List.any_cons, hx, Bool.false_or] at h
      rw [List.map_cons, if_neg hx, List.filter_cons, if_neg hx]
      exact filter_map_overwrite xs nb hnd'.2 h

/-- Overwrite-or-append: the stored archive of the given name is exactly
the new one when names were unique beforehand. -/
theorem filter_setBackup {l : List Backup} {nb : Backup}
    (hnd : (l.map Backup.name).Nodup) :
    (setBackup l nb).filter (fun b => b.name == nb.name) = [nb] := by
  unfold setBackup
  cases hany : l.any (fun x => x.name == nb.name) with
  | true =>
    simp only [hany, if_true]
    exact filter_map_overwrite l nb hnd hany
  | false =>
    simp only [hany, Bool.false_eq_true, if_false]
    have hnone : ∀ a ∈ l, ¬((a.name == nb.name) = true) :=
      List.any_eq_false.mp hany
    rw [List.filter_append, List.filter_eq_nil_iff.mpr hnone]
    simp

/-- A member of the backup directory after `setBackup` that was not there
before is the new archive itself. -/
theorem setBackup_mem_new {l : List Backup} {nb b : Backup}
    (hmem : b ∈ setBackup l nb) (hold : b ∉ l) : b = nb := by
  unfold setBackup at hmem
  by_cases hany : l.any (fun x => x.name == nb.name) = true
  · rw [if_pos hany] at hmem
    obtain ⟨a, ha, hfa⟩ := List.mem_map.mp hmem
    by_cases hax : (a.name == nb.name) = true
    · rw [if_pos hax] at hfa
      exact hfa.symm
    · rw [if_neg hax] at hfa
      exact absurd (hfa ▸ ha) hold
  · rw [if_neg hany] at hmem
    rcases List.mem_append.mp hmem with h | h
    · exact absurd h hold
    · simpa using h

/-- Overwriting an existing slot adds no archive. -/
theorem setBackup_length_of_any {l : List Backup} {nb : Backup}
    (h : l.any (fun x => x.name == nb.name) = true) :
    (setBackup l nb).length = l.length := by
  simp [setBackup, h]

/-- After `setBackup`, a slot of the archive's name exists. -/
theorem setBackup_any (l : List Backup) (nb : Backup) :
    (setBackup l nb).any (fun x => x.name == nb.name) = true := by
  unfold setBackup
  by_cases h : l.any (fun x => x.name == nb.name) = true
  · rw [if_pos h]
    obtain ⟨x, hx, hmatch⟩ := List.any_eq_true.mp h
    exact List.any_eq_true.mpr
      ⟨nb, List.mem_map.mpr ⟨x, hx, by rw [if_pos hmatch]⟩, by simp⟩
  · rw [if_neg h]
    exact List.any_eq_true.mpr ⟨nb, List.mem_append_right l (by simp), by simp⟩

/-- Overwriting preserves the stored names. -/
theorem map_name_setBackup_of_any {l : List Backup} {nb : Backup}
    (h : l.any (fun x => x.name == nb.name) = true) :
    (l.map (fun x => if x.name == nb.name then nb else x)).map Backup.name
      = l.map Backup.name := by
  induction l with
  | nil => rfl
  | cons x xs ih =>
    rw [List.map_cons, List.map_cons, List.map_cons]
    by_cases hx : (x.name == nb.name) = true
    · have hxeq : x.name = nb.name := by simpa using hx
      rw [if_pos hx, hxeq]
      by_cases hxs : xs.any (fun y => y.name == nb.name) = true
      · rw [ih hxs]
      · rw [map_if_name_eq (fun y hy => Bool.eq_false_iff.mpr
              (List.any_eq_false.mp (Bool.eq_false_iff.mpr hxs) y hy))]
    · simp only [List.any_cons, hx, Bool.false_or] at h
      rw [if_neg hx, ih h]

/-- `setBackup` keeps backup names unique. -/
theorem setBackup_names_nodup {l : List Backup} {nb : Backup}
    (hnd : (l.map Backup.name).Nodup) :
    ((setBackup l nb).map Backup.name).Nodup := by
  unfold setBackup
  by_cases h : l.any (fun x => x.name == nb.name) = true
  · rw [if_pos h, map_name_setBackup_of_any h]
    exact hnd
  · rw [if_neg h, List.map_append]
    rw [List.nodup_append]
    refine ⟨hnd, List.nodup_singleton _, ?_⟩
    intro a ha hb
    have haeq : a = nb.name := by simpa using hb
    obtain ⟨x, hx, hxa⟩ := List.mem_map.mp ha
    have : (x.name == nb.name) = true := by simp [hxa, haeq]
    exact absurd (List.any_eq_true.mpr ⟨x, hx, this⟩) h

/-! ### C8 -/

/-- C8: the backup archive name is derived from the application
identifier and the *currently running* version — `createBackup` does not
consult the manifest at all, and any archive it adds is named
`<APP_NAME>_v<VERSION>.zip`.  Each running version therefore has one
backup slot: after a backup that slot holds exactly the fresh snapshot,
and backing up again while the same version runs overwrites that slot
without adding an archive. -/
theorem C8_backup_slot :
    (∀ (cfg : Config) (env : Env) (s : St) (b : Backup),
        b ∈ (createBackup cfg env s).2.1.backups → b ∉ s.backups →
        b.name = cfg.backupZipName) ∧
    (∀ (cfg : Config) (env : Env) (s : St),
        env.backupOk = true → (s.backups.map Backup.name).Nodup →
        (createBackup cfg env s).2.1.backups.filter
            (fun b => b.name == cfg.backupZipName)
          = [⟨cfg.backupZipName, s.clock, s.install⟩]) ∧
    (∀ (cfg : Config) (env₁ env₂ : Env) (s : St),
        env₁.backupOk = true → env₂.backupOk = true →
        (s.backups.map Backup.name).Nodup →
        ((createBackup cfg env₂ (createBackup cfg env₁ s).2.1).2.1.backups.length
            = (createBackup cfg env₁ s).2.1.backups.length) ∧
        (createBackup cfg env₂ (createBackup cfg env₁ s).2.1).2.1.backups.filter
            (fun b => b.name == cfg.backupZipName)
          = [⟨cfg.backupZipName, s.clock + 1, s.install⟩]) := by
  refine ⟨?_, ?_, ?_⟩
  · intro cfg env s b hmem hold
    by_cases hbk : env.backupOk = true
    · rw [createBackup_ok s hbk] at hmem
      exact congrArg Backup.name (setBackup_mem_new hmem hold)
    · have : createBackup cfg env s = (false, s, [Event.backupAttempt]) := by
        simp [createBackup, hbk]
      rw [this] at hmem
      exact absurd hmem hold
  · intro cfg env s hbk hnd
    rw [createBackup_ok s hbk]
    show (setBackup s.backups ⟨cfg.backupZipName, s.clock, s.install⟩).filter
        (fun b => b.name == (⟨cfg.backupZipName, s.clock, s.install⟩ : Backup).name)
      = [⟨cfg.backupZipName, s.clock, s.install⟩]
    exact filter_setBackup hnd
  · intro cfg env₁ env₂ s h1 h2 hnd
    rw [createBackup_ok s h1, createBackup_ok _ h2]
    constructor
    · show (setBackup (setBackup s.backups ⟨cfg.backupZipName, s.clock, s.install⟩)
            ⟨cfg.backupZipName, s.clock + 1, s.install⟩).length
        = (setBackup s.backups ⟨cfg.backupZipName, s.clock, s.install⟩).length
      exact setBackup_length_of_any
        (setBackup_any s.backups ⟨cfg.backupZipName, s.clock, s.install⟩)
    · show (setBackup (setBackup s.backups ⟨cfg.backupZipName, s.clock, s.install⟩)
            ⟨cfg.backupZipName, s.clock + 1, s.install⟩).filter
            (fun b => b.name == (⟨cfg.backupZipName, s.clock + 1, s.install⟩ : Backup).name)
        = [⟨cfg.backupZipName, s.clock + 1, s.install⟩]
      exact filter_setBackup (setBackup_names_nodup hnd)

/-- Witness for C8 on a concrete directory holding an unrelated archive:
the fresh backup is the unique slot for the running version, and a second
backup overwrites it without growing the directory. -/
theorem C8_witness :
    (∀ b ∈ (createBackup defaultConfig envAllOk stB).2.1.backups,
        b ∉ stB.backups → b.name = defaultConfig.backupZipName) ∧
    (createBackup defaultConfig envAllOk stB).2.1.backups.filter
        (fun b => b.name == defaultConfig.backupZipName)
      = [⟨defaultConfig.backupZipName, stB.clock, stB.install⟩] ∧
    ((createBackup defaultConfig envAllOk
        (createBackup defaultConfig envAllOk stB).2.1).2.1.backups.length
      = (createBackup defaultConfig envAllOk stB).2.1.backups.length) ∧
    (createBackup defaultConfig envAllOk
        (createBackup defaultConfig envAllOk stB).2.1).2.1.backups.filter
        (fun b => b.name == defaultConfig.backupZipName)
      = [⟨defaultConfig.backupZipName, stB.clock + 1, stB.install⟩] :=
  ⟨fun b hb hnb => C8_backup_slot.1 defaultConfig envAllOk stB b hb hnb,
   C8_backup_slot.2.1 defaultConfig envAllOk stB rfl (by decide),
   (C8_backup_slot.2.2 defaultConfig envAllOk envAllOk stB rfl rfl (by decide)).1,
   (C8_backup_slot.2.2 defaultConfig envAllOk envAllOk stB rfl rfl (by decide)).2⟩

/-! ### C6 -/

/-- C6: eviction lists exactly the archives matching the naming
convention, orders them by modification time descending, and deletes
exactly the entries beyond the retention count: afterwards the matching
archives are a permutation of the first `MAX_BACKUP_COUNT` of that
order, so at most `MAX_BACKUP_COUNT` remain; every archive among the
most recent `MAX_BACKUP_COUNT` survives regardless of its version, every
entry beyond them is deleted, every deleted entry is no newer than every
kept one, and files not matching the convention are never deleted. -/
theorem C6_eviction_policy (cfg : Config) (s : St)
    (hnd : (s.backups.map Backup.name).Nodup) :
    ((cleanupOldBackups cfg s).1.backups.filter
        (fun b => matchesBackupGlob cfg b.name)).Perm
        ((evictionSorted cfg s).take cfg.MAX_BACKUP_COUNT) ∧
    ((cleanupOldBackups cfg s).1.backups.filter
        (fun b => matchesBackupGlob cfg b.name)).length ≤ cfg.MAX_BACKUP_COUNT ∧
    (∀ k ∈ (evictionSorted cfg s).take cfg.MAX_BACKUP_COUNT,
        k ∈ (cleanupOldBackups cfg s).1.backups) ∧
    (∀ d ∈ (evictionSorted cfg s).drop cfg.MAX_BACKUP_COUNT,
        d ∉ (cleanupOldBackups cfg s).1.backups) ∧
    (∀ k ∈ (evictionSorted cfg s).take cfg.MAX_BACKUP_COUNT,
        ∀ d ∈ (evictionSorted cfg s).drop cfg.MAX_BACKUP_COUNT, d.mtime ≤ k.mtime) ∧
    (∀ b ∈ s.backups, matchesBackupGlob cfg b.name = false →
        b ∈ (cleanupOldBackups cfg s).1.backups) ∧
    (∀ b ∈ (cleanupOldBackups cfg s).1.backups, b ∈ s.backups) := by
  have hafter : (cleanupOldBackups cfg s).1.backups
      = s.backups.filter (fun b =>
          !(((evictionSorted cfg s).drop cfg.MAX_BACKUP_COUNT).any
              (fun d => d.name == b.name))) := rfl
  have hinj := List.inj_on_of_nodup_map hnd
  have hndl : s.backups.Nodup := List.Nodup.of_map Backup.name hnd
  have hperm : (evictionSorted cfg s).Perm
      (s.backups.filter (fun b => matchesBackupGlob cfg b.name)) :=
    List.perm_insertionSort _ _
  have hpw : List.Pairwise mtimeDescOrder (evictionSorted cfg s) :=
    List.sorted_insertionSort mtimeDescOrder _
  have hdecomp : (evictionSorted cfg s).take cfg.MAX_BACKUP_COUNT
      ++ (evictionSorted cfg s).drop cfg.MAX_BACKUP_COUNT = evictionSorted cfg s :=
    List.take_append_drop _ _
  have hsort_mem : ∀ x ∈ evictionSorted cfg s, x ∈ s.backups := fun x hx =>
    (List.mem_filter.mp (hperm.mem_iff.mp hx)).1
  have hsort_glob : ∀ x ∈ evictionSorted cfg s, matchesBackupGlob cfg x.name = true :=
    fun x hx => (List.mem_filter.mp (hperm.mem_iff.mp hx)).2
  have htake_mem : ∀ k ∈ (evictionSorted cfg s).take cfg.MAX_BACKUP_COUNT,
      k ∈ s.backups := fun k hk => hsort_mem k (List.mem_of_mem_take hk)
  have hdrop_mem : ∀ d ∈ (evictionSorted cfg s).drop cfg.MAX_BACKUP_COUNT,
      d ∈ s.backups := fun d hd => hsort_mem d (List.mem_of_mem_drop hd)
  have hnsort : (evictionSorted cfg s).Nodup :=
    hperm.nodup_iff.mpr (hndl.filter _)
  have hdisj : List.Disjoint ((evictionSorted cfg s).take cfg.MAX_BACKUP_COUNT)
      ((evictionSorted cfg s).drop cfg.MAX_BACKUP_COUNT) :=
    List.disjoint_of_nodup_append (hdecomp.symm ▸ hnsort)
  have hany_imp : ∀ b ∈ s.backups,
      (((evictionSorted cfg s).drop cfg.MAX_BACKUP_COUNT).any
          (fun d => d.name == b.name)) = true →
      b ∈ (evictionSorted cfg s).drop cfg.MAX_BACKUP_COUNT := by
    intro b hb h
    obtain ⟨d, hd, hdb⟩ := List.any_eq_true.mp h
    have hdname : d.name = b.name := by simpa using hdb
    have : d = b := hinj (hdrop_mem d hd) hb hdname
    rwa [← this]
  have hPtrue : ∀ b ∈ s.backups,
      b ∉ (evictionSorted cfg s).drop cfg.MAX_BACKUP_COUNT →
      (!(((evictionSorted cfg s).drop cfg.MAX_BACKUP_COUNT).any
          (fun d => d.name == b.name))) = true := by
    intro b hb hnin
    have : (((evictionSorted cfg s).drop cfg.MAX_BACKUP_COUNT).any
        (fun d => d.name == b.name)) = false := by
      rw [Bool.eq_false_iff]
      intro hcon
      exact hnin (hany_imp b hb hcon)
    rw [this]
    rfl
  have htakeP : ∀ k ∈ (evictionSorted cfg s).take cfg.MAX_BACKUP_COUNT,
      (!(((evictionSorted cfg s).drop cfg.MAX_BACKUP_COUNT).any
          (fun d => d.name == k.name))) = true :=
    fun k hk => hPtrue k (htake_mem k hk) (fun hcon => hdisj hk hcon)
  have hdropP : ∀ d ∈ (evictionSorted cfg s).drop cfg.MAX_BACKUP_COUNT,
      ¬((!(((evictionSorted cfg s).drop cfg.MAX_BACKUP_COUNT).any
          (fun x => x.name == d.name))) = true) := by
    intro d hd
    have : (((evictionSorted cfg s).drop cfg.MAX_BACKUP_COUNT).any
        (fun x => x.name == d.name)) = true :=
      List.any_eq_true.mpr ⟨d, hd, by simp⟩
    simp [this]
  have hfilter_sorted : (evictionSorted cfg s).filter (fun b =>
      !(((evictionSorted cfg s).drop cfg.MAX_BACKUP_COUNT).any
          (fun d => d.name == b.name)))
      = (evictionSorted cfg s).take cfg.MAX_BACKUP_COUNT := by
    calc (evictionSorted cfg s).filter (fun b =>
        !(((evictionSorted cfg s).drop cfg.MAX_BACKUP_COUNT).any
            (fun d => d.name == b.name)))
        = ((evictionSorted cfg s).take cfg.MAX_BACKUP_COUNT
            ++ (evictionSorted cfg s).drop cfg.MAX_BACKUP_COUNT).filter (fun b =>
            !(((evictionSorted cfg s).drop cfg.MAX_BACKUP_COUNT).any
                (fun d => d.name == b.name))) := by rw [hdecomp]
      _ = ((evictionSorted cfg s).take cfg.MAX_BACKUP_COUNT).filter (fun b =>
            !(((evictionSorted cfg s).drop cfg.MAX_BACKUP_COUNT).any
                (fun d => d.name == b.name)))
          ++ ((evictionSorted cfg s).drop cfg.MAX_BACKUP_COUNT).filter (fun b =>
            !(((evictionSorted cfg s).drop cfg.MAX_BACKUP_COUNT).any
                (fun d => d.name == b.name))) := List.filter_append _ _
      _ = (evictionSorted cfg s).take cfg.MAX_BACKUP_COUNT ++ [] := by
            rw [List.filter_eq_self.mpr htakeP, List.filter_eq_nil_iff.mpr hdropP]
      _ = (evictionSorted cfg s).take cfg.MAX_BACKUP_COUNT := List.append_nil _
  have hG1 : ((cleanupOldBackups cfg s).1.backups.filter
      (fun b => matchesBackupGlob cfg b.name)).Perm
      ((evictionSorted cfg s).take cfg.MAX_BACKUP_COUNT) := by
    rw [hafter]
    have hcomm : ((s.backups.filter (fun b =>
          !(((evictionSorted cfg s).drop cfg.MAX_BACKUP_COUNT).any
              (fun d => d.name == b.name)))).filter
            (fun b => matchesBackupGlob cfg b.name))
        = ((s.backups.filter (fun b => matchesBackupGlob cfg b.name)).filter (fun b =>
            !(((evictionSorted cfg s).drop cfg.MAX_BACKUP_COUNT).any
                (fun d => d.name == b.name)))) := by
      rw [List.filter_filter, List.filter_filter]
      exact List.filter_congr (fun a _ => Bool.and_comm _ _)
    rw [hcomm]
    have h1 := (hperm.filter (fun b =>
        !(((evictionSorted cfg s).drop cfg.MAX_BACKUP_COUNT).any
            (fun d => d.name == b.name)))).symm
    rwa [hfilter_sorted] at h1
  refine ⟨hG1, ?_, ?_, ?_, ?_, ?_, ?_⟩
  · rw [hG1.length_eq, List.length_take]
    exact Nat.min_le_left _ _
  · intro k hk
    rw [hafter]
    exact List.mem_filter.mpr ⟨htake_mem k hk, htakeP k hk⟩
  · intro d hd hcon
    rw [hafter] at hcon
    exact hdropP d hd (List.mem_filter.mp hcon).2
  · intro k hk d hd
    have hpw2 : List.Pairwise mtimeDescOrder
        ((evictionSorted cfg s).take cfg.MAX_BACKUP_COUNT
          ++ (evictionSorted cfg s).drop cfg.MAX_BACKUP_COUNT) :=
      hdecomp.symm ▸ hpw
    exact (List.pairwise_append.mp hpw2).2.2 k hk d hd
  · intro b hb hglob
    rw [hafter]
    refine List.mem_filter.mpr ⟨hb, hPtrue b hb ?_⟩
    intro hcon
    have hmem := hsort_glob b (List.mem_of_mem_drop hcon)
    rw [hglob] at hmem
    exact absurd hmem (by simp)
  · intro b hb
    rw [hafter] at hb
    exact (List.mem_filter.mp hb).1

/-- Witness for C6 on a concrete backup directory of seven matching
archives with scrambled modification times plus one unrelated file: the
five most recently modified archives survive, the two oldest are deleted,
and the unrelated file is untouched. -/
theorem C6_witness :
    ((stB.backups.map Backup.name).Nodup) ∧
    ((cleanupOldBackups defaultConfig stB).1.backups.filter
        (fun b => matchesBackupGlob defaultConfig b.name)).Perm
        ((evictionSorted defaultConfig stB).take defaultConfig.MAX_BACKUP_COUNT) ∧
    ((cleanupOldBackups defaultConfig stB).1.backups.filter
        (fun b => matchesBackupGlob defaultConfig b.name)).length
      ≤ defaultConfig.MAX_BACKUP_COUNT ∧
    (∀ k ∈ (evictionSorted defaultConfig stB).take defaultConfig.MAX_BACKUP_COUNT,
        ∀ d ∈ (evictionSorted defaultConfig stB).drop defaultConfig.MAX_BACKUP_COUNT,
        d.mtime ≤ k.mtime) ∧
    (∀ b ∈ stB.backups, matchesBackupGlob defaultConfig b.name = false →
        b ∈ (cleanupOldBackups defaultConfig stB).1.backups) :=
  ⟨by decide,
   (C6_eviction_policy defaultConfig stB (by decide)).1,
   (C6_eviction_policy defaultConfig stB (by decide)).2.1,
   (C6_eviction_policy defaultConfig stB (by decide)).2.2.2.2.1,
   (C6_eviction_policy defaultConfig stB (by decide)).2.2.2.2.2.1⟩

end SelfUpdate
